import Mathlib

/-!
# co2_logger: hierarchical status flag (`co2_logger_state.h`)

Shallow embedding of `namespace Status` and `struct State`.

* The enum `Status::Status` is an inductive type with the three enumerators.
* A `State*` is an address (`Nat`) or `NULL` (`none`).
* The objects of type `State` that are alive form a `Heap`: a list of records, the
  address of an object being its index.  Member functions take the heap and the
  address of `this` and return the heap after the call; dereferencing a pointer that
  designates no live object has no defined behaviour and is modelled by `none`.
-/

/-- Enumeration `Status::Status` (lines 9-14). -/
inductive Status where
  | INITIALIZE
  | WORKING
  | ERROR
deriving DecidableEq, Repr

/-- Function `Status::toString` (lines 16-21): an if / else-if chain without a final
`else`; reaching the end of the function without a `return` is modelled by `none`. -/
def Status.toString (status : Status) : Option String :=
  if status = Status.INITIALIZE then some "INITIALIZE"
  else if status = Status.WORKING then some "WORKING"
  else if status = Status.ERROR then some "ERROR"
  else none

/-- Address of a `State` object; a `State*` is an `Option Addr`, `none` being `NULL`. -/
abbrev Addr := Nat

/-- Data members of `struct State` (lines 76-78). -/
structure State where
  status : Status
  status_previous : Status
  parent_state_ptr : Option Addr
deriving DecidableEq, Repr

/-- The live `State` objects, addressed by index. -/
abbrev Heap := List State

/-- Current status of the object at address `a`, if there is one. -/
def statusOf (h : Heap) (a : Addr) : Option Status := (h[a]?).map State.status

/-- Previous status of the object at address `a`, if there is one. -/
def statusPreviousOf (h : Heap) (a : Addr) : Option Status :=
  (h[a]?).map State.status_previous

/-- Parent pointer of the object at address `a`, if there is such an object. -/
def parentOf (h : Heap) (a : Addr) : Option (Option Addr) :=
  (h[a]?).map State.parent_state_ptr

/-- Member `State::setParentStatePointer` (lines 41-44). -/
def State.setParentStatePointer (h : Heap) (this : Addr) (parent_state_ptr_in : Option Addr) :
    Option Heap :=
  match h[this]? with
  | none => none
  | some s => some (h.set this { s with parent_state_ptr := parent_state_ptr_in })

/-- Member `State::updateStatus` (lines 46-50):
`status_previous = status; status = new_status;`. -/
def State.updateStatus (h : Heap) (this : Addr) (new_status : Status) : Option Heap :=
  match h[this]? with
  | none => none
  | some s =>
    let s1 := { s with status_previous := s.status }
    some (h.set this { s1 with status := new_status })

/-- Member `State::setToInitialize` (lines 52-59). -/
def State.setToInitialize (h : Heap) (this : Addr) : Option Heap :=
  match State.updateStatus h this Status.INITIALIZE with
  | none => none
  | some h1 =>
    match h1[this]? with
    | none => none
    | some s =>
      match s.parent_state_ptr with
      | some p => State.updateStatus h1 p Status.INITIALIZE
      | none => some h1

/-- Member `State::setToWorking` (lines 61-65). -/
def State.setToWorking (h : Heap) (this : Addr) : Option Heap :=
  State.updateStatus h this Status.WORKING

/-- Member `State::setToError` (lines 67-74). -/
def State.setToError (h : Heap) (this : Addr) : Option Heap :=
  match State.updateStatus h this Status.ERROR with
  | none => none
  | some h1 =>
    match h1[this]? with
    | none => none
    | some s =>
      match s.parent_state_ptr with
      | some p => State.updateStatus h1 p Status.ERROR
      | none => some h1

/-- Storage of a `State` object when the body of a constructor starts: the default
member initializer has set `status = Status::INITIALIZE` (line 76); `status_previous`
and `parent_state_ptr` have no initializer (lines 77-78) and hold whatever `raw`
holds.  The object is placed at the first free address. -/
def State.allocate (h : Heap) (raw : State) : Heap × Addr :=
  (h ++ [{ raw with status := Status.INITIALIZE }], h.length)

/-- Constructor `State::State()` (lines 29-33):
`parent_state_ptr = NULL; setToInitialize();`.  Returns the heap and the address of
the new object. -/
def State.State_ctor (h : Heap) (raw : State) : Option (Heap × Addr) :=
  let (h0, this) := State.allocate h raw
  match State.setParentStatePointer h0 this none with
  | none => none
  | some h1 =>
    match State.setToInitialize h1 this with
    | none => none
    | some h2 => some (h2, this)

/-- Constructor `State::State(State*)` (lines 35-39):
`parent_state_ptr = parent_state_ptr_in; setToInitialize();`. -/
def State.State_ctor_parent (h : Heap) (raw : State) (parent_state_ptr_in : Option Addr) :
    Option (Heap × Addr) :=
  let (h0, this) := State.allocate h raw
  match State.setParentStatePointer h0 this parent_state_ptr_in with
  | none => none
  | some h1 =>
    match State.setToInitialize h1 this with
    | none => none
    | some h2 => some (h2, this)

/-! ## Example heaps -/

/-- Record of a State without parent, in status `st`, previously INITIALIZE. -/
def rootState (st : Status) : State := ⟨st, Status.INITIALIZE, none⟩

/-- Record of a State whose parent is at address `p`, in status `st`, previously
INITIALIZE. -/
def childState (st : Status) (p : Addr) : State := ⟨st, Status.INITIALIZE, some p⟩

/-- Two objects: a parent at address 0 in status `sp` and its child at address 1 in
status `sc`. -/
def pairHeap (sp sc : Status) : Heap := [rootState sp, childState sc 0]

/-- Three objects in a chain: a grandparent at address 0, a parent at address 1 and a
child at address 2, all WORKING. -/
def chainHeap : Heap :=
  [rootState Status.WORKING, childState Status.WORKING 0, childState Status.WORKING 1]

/-- One object at address 0 that is its own parent, in status WORKING. -/
def selfHeap : Heap := [childState Status.WORKING 0]

/-! ## Auxiliary facts about `updateStatus` -/

theorem updateStatus_eq_some (h : Heap) (a : Addr) (n : Status) (s : State)
    (hs : h[a]? = some s) :
    State.updateStatus h a n =
      some (h.set a { status := n, status_previous := s.status,
                      parent_state_ptr := s.parent_state_ptr }) := by
  simp [State.updateStatus, hs]

theorem length_pos_of_getElem? (h : Heap) (a : Addr) (s : State) (hs : h[a]? = some s) :
    a < h.length := by
  rcases List.getElem?_eq_some_iff.mp hs with ⟨hl, _⟩
  exact hl

/-! ## Closed forms of the propagating transitions -/

theorem setToError_of_no_parent (h : Heap) (c : Addr) (sc : State)
    (hc : h[c]? = some sc) (hn : sc.parent_state_ptr = none) :
    State.setToError h c = some (h.set c ⟨Status.ERROR, sc.status, none⟩) := by
  have hl := length_pos_of_getElem? h c sc hc
  simp [State.setToError, State.updateStatus, hc, hn, hl]

theorem setToError_of_parent (h : Heap) (c p : Addr) (sc sp : State)
    (hc : h[c]? = some sc) (hpar : sc.parent_state_ptr = some p)
    (hp : h[p]? = some sp) (hne : p ≠ c) :
    State.setToError h c =
      some ((h.set c ⟨Status.ERROR, sc.status, some p⟩).set p
        ⟨Status.ERROR, sp.status, sp.parent_state_ptr⟩) := by
  have hl := length_pos_of_getElem? h c sc hc
  have hcp : c ≠ p := fun e => hne e.symm
  simp [State.setToError, State.updateStatus, hc, hpar, hp, hl, hcp]

theorem setToError_of_self (h : Heap) (c : Addr) (sc : State)
    (hc : h[c]? = some sc) (hpar : sc.parent_state_ptr = some c) :
    State.setToError h c = some (h.set c ⟨Status.ERROR, Status.ERROR, some c⟩) := by
  have hl := length_pos_of_getElem? h c sc hc
  simp [State.setToError, State.updateStatus, hc, hpar, hl]

theorem setToInitialize_of_no_parent (h : Heap) (c : Addr) (sc : State)
    (hc : h[c]? = some sc) (hn : sc.parent_state_ptr = none) :
    State.setToInitialize h c = some (h.set c ⟨Status.INITIALIZE, sc.status, none⟩) := by
  have hl := length_pos_of_getElem? h c sc hc
  simp [State.setToInitialize, State.updateStatus, hc, hn, hl]

theorem setToInitialize_of_parent (h : Heap) (c p : Addr) (sc sp : State)
    (hc : h[c]? = some sc) (hpar : sc.parent_state_ptr = some p)
    (hp : h[p]? = some sp) (hne : p ≠ c) :
    State.setToInitialize h c =
      some ((h.set c ⟨Status.INITIALIZE, sc.status, some p⟩).set p
        ⟨Status.INITIALIZE, sp.status, sp.parent_state_ptr⟩) := by
  have hl := length_pos_of_getElem? h c sc hc
  have hcp : c ≠ p := fun e => hne e.symm
  simp [State.setToInitialize, State.updateStatus, hc, hpar, hp, hl, hcp]

theorem setToInitialize_of_self (h : Heap) (c : Addr) (sc : State)
    (hc : h[c]? = some sc) (hpar : sc.parent_state_ptr = some c) :
    State.setToInitialize h c =
      some (h.set c ⟨Status.INITIALIZE, Status.INITIALIZE, some c⟩) := by
  have hl := length_pos_of_getElem? h c sc hc
  simp [State.setToInitialize, State.updateStatus, hc, hpar, hl]

theorem setToWorking_of_live (h : Heap) (c : Addr) (sc : State) (hc : h[c]? = some sc) :
    State.setToWorking h c =
      some (h.set c ⟨Status.WORKING, sc.status, sc.parent_state_ptr⟩) := by
  simp [State.setToWorking, State.updateStatus, hc]

/-! ## Closed form of the constructors -/

theorem getElem?_append_new (h : Heap) (r : State) : (h ++ [r])[h.length]? = some r := by
  simp

theorem State_ctor_parent_eq (h : Heap) (raw : State) (pin : Option Addr) :
    State.State_ctor_parent h raw pin =
      (State.setToInitialize (h ++ [⟨Status.INITIALIZE, raw.status_previous, pin⟩])
        h.length).map (fun h2 => (h2, h.length)) := by
  simp only [State.State_ctor_parent, State.allocate, State.setParentStatePointer,
    getElem?_append_new]
  have hset : (h ++ [({ raw with status := Status.INITIALIZE } : State)]).set h.length
      ⟨Status.INITIALIZE, raw.status_previous, pin⟩
      = h ++ [⟨Status.INITIALIZE, raw.status_previous, pin⟩] := by
    simp
  rw [hset]
  cases State.setToInitialize (h ++ [⟨Status.INITIALIZE, raw.status_previous, pin⟩])
    h.length <;> rfl

theorem State_ctor_eq (h : Heap) (raw : State) :
    State.State_ctor h raw = State.State_ctor_parent h raw none := rfl

/-! ## Closed form of `setParentStatePointer` -/

theorem setParentStatePointer_of_live (h : Heap) (s : Addr) (st : State)
    (pin : Option Addr) (hs : h[s]? = some st) :
    State.setParentStatePointer h s pin =
      some (h.set s ⟨st.status, st.status_previous, pin⟩) := by
  simp [State.setParentStatePointer, hs]

theorem statuses_of_set_same_statuses (h : Heap) (s : Addr) (st x : State)
    (hs : h[s]? = some st) (h1 : x.status = st.status)
    (h2 : x.status_previous = st.status_previous) (a : Addr) :
    statusOf (h.set s x) a = statusOf h a ∧
    statusPreviousOf (h.set s x) a = statusPreviousOf h a := by
  have hl := length_pos_of_getElem? h s st hs
  by_cases ha : a = s
  · subst ha
    simp [statusOf, statusPreviousOf, hl, hs, h1, h2]
  · simp [statusOf, statusPreviousOf, List.getElem?_set_ne (fun e => ha e.symm)]

/-! ## Properties of the transitions -/

/-- C1: for a live State `s` holding record `st`, `s.setToWorking()` returns, the status
of `s` becomes WORKING and its status_previous becomes the status it had before the
call; a parent attached to `s` and distinct from `s` keeps its status and its
status_previous. -/
theorem setToWorking_sets_working (h : Heap) (s : Addr) (st : State)
    (hs : h[s]? = some st) :
    ∃ h', State.setToWorking h s = some h' ∧
      statusOf h' s = some Status.WORKING ∧
      statusPreviousOf h' s = some st.status ∧
      ∀ p, st.parent_state_ptr = some p → p ≠ s →
        statusOf h' p = statusOf h p ∧
        statusPreviousOf h' p = statusPreviousOf h p := by
  have hl := length_pos_of_getElem? h s st hs
  refine ⟨_, setToWorking_of_live h s st hs, ?_, ?_, ?_⟩
  · simp [statusOf, hl]
  · simp [statusPreviousOf, hl]
  · intro p _ hne
    have hsp : s ≠ p := fun e => hne e.symm
    simp [statusOf, statusPreviousOf, List.getElem?_set_ne hsp]

/-- Witness for C1: an ERROR child at address 1 whose parent at address 0 is in status
ERROR. -/
theorem setToWorking_sets_working_witness :
    (pairHeap Status.ERROR Status.ERROR)[1]? = some (childState Status.ERROR 0) ∧
    ∃ h', State.setToWorking (pairHeap Status.ERROR Status.ERROR) 1 = some h' ∧
      statusOf h' 1 = some Status.WORKING ∧
      statusPreviousOf h' 1 = some (childState Status.ERROR 0).status ∧
      ∀ p, (childState Status.ERROR 0).parent_state_ptr = some p → p ≠ 1 →
        statusOf h' p = statusOf (pairHeap Status.ERROR Status.ERROR) p ∧
        statusPreviousOf h' p = statusPreviousOf (pairHeap Status.ERROR Status.ERROR) p :=
  ⟨rfl, setToWorking_sets_working (pairHeap Status.ERROR Status.ERROR) 1
    (childState Status.ERROR 0) rfl⟩

/-- C2: for a live child `c` whose parent pointer designates a live State `p`, whatever
the prior statuses, `c.setToError()` returns and afterwards both `c` and `p` have
status ERROR. -/
theorem setToError_child_and_parent (h : Heap) (c p : Addr) (sc sp : State)
    (hc : h[c]? = some sc) (hpar : sc.parent_state_ptr = some p)
    (hp : h[p]? = some sp) :
    ∃ h', State.setToError h c = some h' ∧
      statusOf h' c = some Status.ERROR ∧
      statusOf h' p = some Status.ERROR := by
  have hlc := length_pos_of_getElem? h c sc hc
  have hlp := length_pos_of_getElem? h p sp hp
  by_cases hne : p = c
  · subst hne
    refine ⟨_, setToError_of_self h p sc hc hpar, ?_, ?_⟩ <;> simp [statusOf, hlc]
  · have hcp : c ≠ p := fun e => hne e.symm
    refine ⟨_, setToError_of_parent h c p sc sp hc hpar hp hne, ?_, ?_⟩
    · simp [statusOf, List.getElem?_set_ne hne, hlc]
    · simp [statusOf, hlp]

/-- Witness for C2: a WORKING child at address 1 with a WORKING parent at address 0. -/
theorem setToError_child_and_parent_witness :
    (pairHeap Status.WORKING Status.WORKING)[1]? = some (childState Status.WORKING 0) ∧
    (childState Status.WORKING 0).parent_state_ptr = some 0 ∧
    (pairHeap Status.WORKING Status.WORKING)[0]? = some (rootState Status.WORKING) ∧
    ∃ h', State.setToError (pairHeap Status.WORKING Status.WORKING) 1 = some h' ∧
      statusOf h' 1 = some Status.ERROR ∧
      statusOf h' 0 = some Status.ERROR :=
  ⟨rfl, rfl, rfl, setToError_child_and_parent (pairHeap Status.WORKING Status.WORKING) 1 0
    (childState Status.WORKING 0) (rootState Status.WORKING) rfl rfl rfl⟩

/-- C3: for a live child `c` whose parent pointer designates a live State `p`, whatever
the prior statuses, `c.setToInitialize()` returns and afterwards both `c` and `p` have
status INITIALIZE. -/
theorem setToInitialize_child_and_parent (h : Heap) (c p : Addr) (sc sp : State)
    (hc : h[c]? = some sc) (hpar : sc.parent_state_ptr = some p)
    (hp : h[p]? = some sp) :
    ∃ h', State.setToInitialize h c = some h' ∧
      statusOf h' c = some Status.INITIALIZE ∧
      statusOf h' p = some Status.INITIALIZE := by
  have hlc := length_pos_of_getElem? h c sc hc
  have hlp := length_pos_of_getElem? h p sp hp
  by_cases hne : p = c
  · subst hne
    refine ⟨_, setToInitialize_of_self h p sc hc hpar, ?_, ?_⟩ <;> simp [statusOf, hlc]
  · have hcp : c ≠ p := fun e => hne e.symm
    refine ⟨_, setToInitialize_of_parent h c p sc sp hc hpar hp hne, ?_, ?_⟩
    · simp [statusOf, List.getElem?_set_ne hne, hlc]
    · simp [statusOf, hlp]

/-- Witness for C3: an ERROR child at address 1 with a WORKING parent at address 0. -/
theorem setToInitialize_child_and_parent_witness :
    (pairHeap Status.WORKING Status.ERROR)[1]? = some (childState Status.ERROR 0) ∧
    (childState Status.ERROR 0).parent_state_ptr = some 0 ∧
    (pairHeap Status.WORKING Status.ERROR)[0]? = some (rootState Status.WORKING) ∧
    ∃ h', State.setToInitialize (pairHeap Status.WORKING Status.ERROR) 1 = some h' ∧
      statusOf h' 1 = some Status.INITIALIZE ∧
      statusOf h' 0 = some Status.INITIALIZE :=
  ⟨rfl, rfl, rfl, setToInitialize_child_and_parent (pairHeap Status.WORKING Status.ERROR) 1 0
    (childState Status.ERROR 0) (rootState Status.WORKING) rfl rfl rfl⟩

/-- C4: for a live State `s` whose parent pointer is NULL, each of setToInitialize,
setToWorking and setToError returns a heap (no failure), with the same objects, in which
every object other than `s` has the same record (status, status_previous and parent
link) and `s` still has its parent link. -/
theorem no_parent_transition_is_local (h : Heap) (s : Addr) (st : State)
    (hs : h[s]? = some st) (hn : st.parent_state_ptr = none) :
    ∀ f ∈ [State.setToInitialize, State.setToWorking, State.setToError],
      ∃ h', f h s = some h' ∧ h'.length = h.length ∧
        (∀ a, a ≠ s → h'[a]? = h[a]?) ∧
        parentOf h' s = parentOf h s := by
  have hl := length_pos_of_getElem? h s st hs
  intro f hf
  simp only [List.mem_cons, List.mem_singleton, List.not_mem_nil, or_false] at hf
  rcases hf with rfl | rfl | rfl
  · refine ⟨_, setToInitialize_of_no_parent h s st hs hn, by simp, ?_, ?_⟩
    · intro a ha
      exact List.getElem?_set_ne (fun e => ha e.symm)
    · simp [parentOf, hl, hs, hn]
  · refine ⟨_, setToWorking_of_live h s st hs, by simp, ?_, ?_⟩
    · intro a ha
      exact List.getElem?_set_ne (fun e => ha e.symm)
    · simp [parentOf, hl, hs]
  · refine ⟨_, setToError_of_no_parent h s st hs hn, by simp, ?_, ?_⟩
    · intro a ha
      exact List.getElem?_set_ne (fun e => ha e.symm)
    · simp [parentOf, hl, hs, hn]

/-- Witness for C4: the parentless State at address 0 of a heap that also holds its
child at address 1. -/
theorem no_parent_transition_is_local_witness :
    (pairHeap Status.WORKING Status.WORKING)[0]? = some (rootState Status.WORKING) ∧
    (rootState Status.WORKING).parent_state_ptr = none ∧
    ∀ f ∈ [State.setToInitialize, State.setToWorking, State.setToError],
      ∃ h', f (pairHeap Status.WORKING Status.WORKING) 0 = some h' ∧
        h'.length = (pairHeap Status.WORKING Status.WORKING).length ∧
        (∀ a, a ≠ 0 → h'[a]? = (pairHeap Status.WORKING Status.WORKING)[a]?) ∧
        parentOf h' 0 = parentOf (pairHeap Status.WORKING Status.WORKING) 0 :=
  ⟨rfl, rfl, no_parent_transition_is_local (pairHeap Status.WORKING Status.WORKING) 0
    (rootState Status.WORKING) rfl rfl⟩

/-- C5: `Status::toString` returns the literal name of each enumerator, so the if-chain
produces a result for every one of the three enumerated values. -/
theorem toString_returns_name :
    Status.toString Status.INITIALIZE = some "INITIALIZE" ∧
    Status.toString Status.WORKING = some "WORKING" ∧
    Status.toString Status.ERROR = some "ERROR" ∧
    ∀ status : Status, (Status.toString status).isSome = true := by
  refine ⟨rfl, rfl, rfl, ?_⟩
  intro status
  cases status <;> rfl

/-- Counterexample to C6 as stated: a WORKING State that is its own parent (its parent
pointer holds its own address); after setToError its status_previous is ERROR, not the
WORKING status it had before the call. -/
theorem status_previous_self_parent_counterexample :
    selfHeap[0]? = some (childState Status.WORKING 0) ∧
    statusOf selfHeap 0 = some Status.WORKING ∧
    ∃ h', State.setToError selfHeap 0 = some h' ∧
      statusPreviousOf h' 0 = some Status.ERROR ∧
      statusPreviousOf h' 0 ≠ statusOf selfHeap 0 :=
  ⟨rfl, rfl, [⟨Status.ERROR, Status.ERROR, some 0⟩], rfl, rfl, by decide⟩

/-- C6 (amended): for a live State `s` holding record `st`, after setToWorking the
status_previous of `s` is the status it had before the call, under every parent
configuration; after setToInitialize and after setToError the same holds when the parent
pointer of `s` is NULL or designates a live State other than `s` itself. -/
theorem status_previous_is_prior_status (h : Heap) (s : Addr) (st : State)
    (hs : h[s]? = some st) :
    (∃ h', State.setToWorking h s = some h' ∧
      statusPreviousOf h' s = some st.status) ∧
    ((∀ p, st.parent_state_ptr = some p → p ≠ s ∧ p < h.length) →
      ∀ f ∈ [State.setToInitialize, State.setToError],
        ∃ h', f h s = some h' ∧ statusPreviousOf h' s = some st.status) := by
  have hl := length_pos_of_getElem? h s st hs
  refine ⟨⟨_, setToWorking_of_live h s st hs, by simp [statusPreviousOf, hl]⟩, ?_⟩
  intro hpar f hf
  simp only [List.mem_cons, List.mem_singleton, List.not_mem_nil, or_false] at hf
  cases hq : st.parent_state_ptr with
  | none =>
    rcases hf with rfl | rfl
    · exact ⟨_, setToInitialize_of_no_parent h s st hs hq, by simp [statusPreviousOf, hl]⟩
    · exact ⟨_, setToError_of_no_parent h s st hs hq, by simp [statusPreviousOf, hl]⟩
  | some p =>
    obtain ⟨hne, hlt⟩ := hpar p hq
    obtain ⟨sp, hp⟩ : ∃ sp, h[p]? = some sp := ⟨h[p], List.getElem?_eq_getElem hlt⟩
    rcases hf with rfl | rfl
    · exact ⟨_, setToInitialize_of_parent h s p st sp hs hq hp hne,
        by simp [statusPreviousOf, List.getElem?_set_ne hne, hl]⟩
    · exact ⟨_, setToError_of_parent h s p st sp hs hq hp hne,
        by simp [statusPreviousOf, List.getElem?_set_ne hne, hl]⟩

/-- Witness for C6 (amended): the ERROR child at address 1 of a WORKING parent at
address 0. -/
theorem status_previous_is_prior_status_witness :
    (pairHeap Status.WORKING Status.ERROR)[1]? = some (childState Status.ERROR 0) ∧
    (∀ p, (childState Status.ERROR 0).parent_state_ptr = some p →
      p ≠ 1 ∧ p < (pairHeap Status.WORKING Status.ERROR).length) ∧
    (∃ h', State.setToWorking (pairHeap Status.WORKING Status.ERROR) 1 = some h' ∧
      statusPreviousOf h' 1 = some Status.ERROR) ∧
    ∀ f ∈ [State.setToInitialize, State.setToError],
      ∃ h', f (pairHeap Status.WORKING Status.ERROR) 1 = some h' ∧
        statusPreviousOf h' 1 = some Status.ERROR :=
  have hpar : ∀ p, (childState Status.ERROR 0).parent_state_ptr = some p →
      p ≠ 1 ∧ p < (pairHeap Status.WORKING Status.ERROR).length := by
    intro p hp
    have h0 : 0 = p := Option.some.inj hp
    subst h0
    decide
  have key := status_previous_is_prior_status (pairHeap Status.WORKING Status.ERROR) 1
    (childState Status.ERROR 0) rfl
  ⟨rfl, hpar, key.1, key.2 hpar⟩

/-- C7: a State created by `State()` has status INITIALIZE and status_previous
INITIALIZE, whatever its storage held before; so has a State created by
`State(parent)` when `parent` is NULL, designates a live State, or designates the
object under construction. -/
theorem constructed_state_is_initialize (h : Heap) (raw : State) :
    (∃ h' a, State.State_ctor h raw = some (h', a) ∧
      statusOf h' a = some Status.INITIALIZE ∧
      statusPreviousOf h' a = some Status.INITIALIZE) ∧
    (∀ parent_state_ptr_in : Option Addr,
      (∀ p, parent_state_ptr_in = some p → p ≤ h.length) →
      ∃ h' a, State.State_ctor_parent h raw parent_state_ptr_in = some (h', a) ∧
        statusOf h' a = some Status.INITIALIZE ∧
        statusPreviousOf h' a = some Status.INITIALIZE) := by
  have hctor : ∀ pin : Option Addr, (∀ p, pin = some p → p ≤ h.length) →
      ∃ h' a, State.State_ctor_parent h raw pin = some (h', a) ∧
        statusOf h' a = some Status.INITIALIZE ∧
        statusPreviousOf h' a = some Status.INITIALIZE := by
    intro pin hpin
    have hnew := getElem?_append_new h ⟨Status.INITIALIZE, raw.status_previous, pin⟩
    rw [State_ctor_parent_eq]
    cases pin with
    | none =>
      rw [setToInitialize_of_no_parent _ _ _ hnew rfl]
      exact ⟨_, _, rfl, by simp [statusOf], by simp [statusPreviousOf]⟩
    | some p =>
      rcases Nat.lt_or_eq_of_le (hpin p rfl) with hlt | heq
      · have hne : p ≠ h.length := Nat.ne_of_lt hlt
        have hp : (h ++ [⟨Status.INITIALIZE, raw.status_previous, some p⟩])[p]?
            = some h[p] := by
          rw [List.getElem?_append_left hlt]
          exact List.getElem?_eq_getElem hlt
        rw [setToInitialize_of_parent _ _ p _ _ hnew rfl hp hne]
        refine ⟨_, _, rfl, ?_, ?_⟩
        · simp [statusOf, List.getElem?_set_ne hne]
        · simp [statusPreviousOf, List.getElem?_set_ne hne]
      · subst heq
        rw [setToInitialize_of_self _ _ _ hnew rfl]
        exact ⟨_, _, rfl, by simp [statusOf], by simp [statusPreviousOf]⟩
  refine ⟨?_, hctor⟩
  rw [State_ctor_eq]
  exact hctor none (fun p hp => by cases hp)

/-- Witness for C7: construction next to two live objects, over storage whose
status_previous held WORKING, with the object at address 0 as parent. -/
theorem constructed_state_is_initialize_witness :
    (∀ p, (some 0 : Option Addr) = some p → p ≤ (pairHeap Status.WORKING Status.ERROR).length) ∧
    (∃ h' a, State.State_ctor (pairHeap Status.WORKING Status.ERROR)
        ⟨Status.ERROR, Status.WORKING, some 7⟩ = some (h', a) ∧
      statusOf h' a = some Status.INITIALIZE ∧
      statusPreviousOf h' a = some Status.INITIALIZE) ∧
    (∃ h' a, State.State_ctor_parent (pairHeap Status.WORKING Status.ERROR)
        ⟨Status.ERROR, Status.WORKING, some 7⟩ (some 0) = some (h', a) ∧
      statusOf h' a = some Status.INITIALIZE ∧
      statusPreviousOf h' a = some Status.INITIALIZE) :=
  have hpin : ∀ p, (some 0 : Option Addr) = some p →
      p ≤ (pairHeap Status.WORKING Status.ERROR).length := by
    intro p hp
    have h0 : 0 = p := Option.some.inj hp
    subst h0
    decide
  have key := constructed_state_is_initialize (pairHeap Status.WORKING Status.ERROR)
    ⟨Status.ERROR, Status.WORKING, some 7⟩
  ⟨hpin, key.1, key.2 (some 0) hpin⟩

/-- C8: when a live child `c` whose parent pointer designates a live State `p` other
than `c` performs setToError or setToInitialize, `p` ends with the new status, with
status_previous equal to the status `p` had before the call, and with the very record
that `p.updateStatus(new status)` applied to the initial heap gives it. -/
theorem parent_receives_full_update (h : Heap) (c p : Addr) (sc sp : State)
    (hc : h[c]? = some sc) (hpar : sc.parent_state_ptr = some p)
    (hp : h[p]? = some sp) (hne : p ≠ c) :
    (∃ h' hd, State.setToError h c = some h' ∧
      State.updateStatus h p Status.ERROR = some hd ∧
      statusOf h' p = some Status.ERROR ∧
      statusPreviousOf h' p = some sp.status ∧
      h'[p]? = hd[p]?) ∧
    (∃ h' hd, State.setToInitialize h c = some h' ∧
      State.updateStatus h p Status.INITIALIZE = some hd ∧
      statusOf h' p = some Status.INITIALIZE ∧
      statusPreviousOf h' p = some sp.status ∧
      h'[p]? = hd[p]?) := by
  have hlp := length_pos_of_getElem? h p sp hp
  constructor
  · refine ⟨_, _, setToError_of_parent h c p sc sp hc hpar hp hne,
      updateStatus_eq_some h p Status.ERROR sp hp, ?_, ?_, ?_⟩
    · simp [statusOf, hlp]
    · simp [statusPreviousOf, hlp]
    · simp [hlp]
  · refine ⟨_, _, setToInitialize_of_parent h c p sc sp hc hpar hp hne,
      updateStatus_eq_some h p Status.INITIALIZE sp hp, ?_, ?_, ?_⟩
    · simp [statusOf, hlp]
    · simp [statusPreviousOf, hlp]
    · simp [hlp]

/-- Witness for C8: an ERROR child at address 1 with a WORKING parent at address 0. -/
theorem parent_receives_full_update_witness :
    (pairHeap Status.WORKING Status.ERROR)[1]? = some (childState Status.ERROR 0) ∧
    (childState Status.ERROR 0).parent_state_ptr = some 0 ∧
    (pairHeap Status.WORKING Status.ERROR)[0]? = some (rootState Status.WORKING) ∧
    (0 : Addr) ≠ 1 ∧
    (∃ h' hd, State.setToError (pairHeap Status.WORKING Status.ERROR) 1 = some h' ∧
      State.updateStatus (pairHeap Status.WORKING Status.ERROR) 0 Status.ERROR = some hd ∧
      statusOf h' 0 = some Status.ERROR ∧
      statusPreviousOf h' 0 = some Status.WORKING ∧
      h'[0]? = hd[0]?) ∧
    (∃ h' hd, State.setToInitialize (pairHeap Status.WORKING Status.ERROR) 1 = some h' ∧
      State.updateStatus (pairHeap Status.WORKING Status.ERROR) 0 Status.INITIALIZE
        = some hd ∧
      statusOf h' 0 = some Status.INITIALIZE ∧
      statusPreviousOf h' 0 = some Status.WORKING ∧
      h'[0]? = hd[0]?) :=
  ⟨rfl, rfl, rfl, by decide,
    parent_receives_full_update (pairHeap Status.WORKING Status.ERROR) 1 0
      (childState Status.ERROR 0) (rootState Status.WORKING) rfl rfl rfl (by decide)⟩

/-- C9: in a chain of three distinct live States, `g` the parent of `p` and `p` the
parent of `c`, `c.setToError()` and `c.setToInitialize()` return a heap in which `g` has
the status and status_previous it had, every object other than `c` and `p` has the
record it had, and every object has the parent link it had. -/
theorem propagation_is_single_level (h : Heap) (c p g : Addr) (sc sp sg : State)
    (hc : h[c]? = some sc) (hcpar : sc.parent_state_ptr = some p)
    (hp : h[p]? = some sp) (_hppar : sp.parent_state_ptr = some g)
    (_hg : h[g]? = some sg) (hpc : p ≠ c) (hgp : g ≠ p) (hgc : g ≠ c) :
    ∀ f ∈ [State.setToError, State.setToInitialize],
      ∃ h', f h c = some h' ∧
        statusOf h' g = statusOf h g ∧
        statusPreviousOf h' g = statusPreviousOf h g ∧
        (∀ a, a ≠ c → a ≠ p → h'[a]? = h[a]?) ∧
        (∀ a, parentOf h' a = parentOf h a) := by
  have hlc := length_pos_of_getElem? h c sc hc
  have hlp := length_pos_of_getElem? h p sp hp
  have hcg : c ≠ g := fun e => hgc e.symm
  have hpg : p ≠ g := fun e => hgp e.symm
  have frame : ∀ (x y : State) (a : Addr), a ≠ c → a ≠ p →
      ((h.set c x).set p y)[a]? = h[a]? := by
    intro x y a hac hap
    rw [List.getElem?_set_ne (fun e => hap e.symm), List.getElem?_set_ne (fun e => hac e.symm)]
  have links : ∀ (x y : State), x.parent_state_ptr = sc.parent_state_ptr →
      y.parent_state_ptr = sp.parent_state_ptr →
      ∀ a, parentOf ((h.set c x).set p y) a = parentOf h a := by
    intro x y hx hy a
    by_cases hap : a = p
    · subst hap
      simp [parentOf, hlp, hp, hy]
    · by_cases hac : a = c
      · subst hac
        simp [parentOf, List.getElem?_set_ne (fun e => hap e.symm), hlc, hc, hx]
      · simp [parentOf, frame x y a hac hap]
  intro f hf
  simp only [List.mem_cons, List.mem_singleton, List.not_mem_nil, or_false] at hf
  rcases hf with rfl | rfl
  · refine ⟨_, setToError_of_parent h c p sc sp hc hcpar hp hpc, ?_, ?_, ?_, ?_⟩
    · simp [statusOf, frame _ _ g hgc hgp]
    · simp [statusPreviousOf, frame _ _ g hgc hgp]
    · exact frame _ _
    · exact links _ _ hcpar.symm rfl
  · refine ⟨_, setToInitialize_of_parent h c p sc sp hc hcpar hp hpc, ?_, ?_, ?_, ?_⟩
    · simp [statusOf, frame _ _ g hgc hgp]
    · simp [statusPreviousOf, frame _ _ g hgc hgp]
    · exact frame _ _
    · exact links _ _ hcpar.symm rfl

/-- Witness for C9: the chain of three WORKING States at addresses 0, 1 and 2. -/
theorem propagation_is_single_level_witness :
    chainHeap[2]? = some (childState Status.WORKING 1) ∧
    chainHeap[1]? = some (childState Status.WORKING 0) ∧
    chainHeap[0]? = some (rootState Status.WORKING) ∧
    ∀ f ∈ [State.setToError, State.setToInitialize],
      ∃ h', f chainHeap 2 = some h' ∧
        statusOf h' 0 = statusOf chainHeap 0 ∧
        statusPreviousOf h' 0 = statusPreviousOf chainHeap 0 ∧
        (∀ a, a ≠ 2 → a ≠ 1 → h'[a]? = chainHeap[a]?) ∧
        (∀ a, parentOf h' a = parentOf chainHeap a) :=
  ⟨rfl, rfl, rfl,
    propagation_is_single_level chainHeap 2 1 0 (childState Status.WORKING 1)
      (childState Status.WORKING 0) (rootState Status.WORKING) rfl rfl rfl rfl rfl
      (by decide) (by decide) (by decide)⟩

/-- C10: for a live child `c` whose parent pointer designates a live State `p` other
than `c`, the sequence `c.setToError(); c.setToWorking()` returns; afterwards `c` has
status WORKING and status_previous ERROR, while `p` still has status ERROR and the
status_previous it had after setToError (the status `p` had at the start). -/
theorem parent_not_restored (h : Heap) (c p : Addr) (sc sp : State)
    (hc : h[c]? = some sc) (hpar : sc.parent_state_ptr = some p)
    (hp : h[p]? = some sp) (hne : p ≠ c) :
    ∃ h1 h2, State.setToError h c = some h1 ∧ State.setToWorking h1 c = some h2 ∧
      statusOf h2 c = some Status.WORKING ∧
      statusPreviousOf h2 c = some Status.ERROR ∧
      statusOf h2 p = some Status.ERROR ∧
      statusPreviousOf h2 p = statusPreviousOf h1 p ∧
      statusPreviousOf h2 p = some sp.status := by
  have hlc := length_pos_of_getElem? h c sc hc
  have hlp := length_pos_of_getElem? h p sp hp
  have hcp : c ≠ p := fun e => hne e.symm
  have h1c : ((h.set c ⟨Status.ERROR, sc.status, some p⟩).set p
      ⟨Status.ERROR, sp.status, sp.parent_state_ptr⟩)[c]?
      = some ⟨Status.ERROR, sc.status, some p⟩ := by
    simp [List.getElem?_set_ne hne, hlc]
  refine ⟨_, _, setToError_of_parent h c p sc sp hc hpar hp hne,
    setToWorking_of_live _ c _ h1c, ?_, ?_, ?_, ?_, ?_⟩
  · simp [statusOf, hlc]
  · simp [statusPreviousOf, hlc]
  · simp [statusOf, List.getElem?_set_ne hcp, hlp]
  · simp [statusPreviousOf, List.getElem?_set_ne hcp, hlp]
  · simp [statusPreviousOf, List.getElem?_set_ne hcp, hlp]

/-- Witness for C10: a WORKING child at address 1 with a WORKING parent at address
0. -/
theorem parent_not_restored_witness :
    (pairHeap Status.WORKING Status.WORKING)[1]? = some (childState Status.WORKING 0) ∧
    (pairHeap Status.WORKING Status.WORKING)[0]? = some (rootState Status.WORKING) ∧
    ∃ h1 h2, State.setToError (pairHeap Status.WORKING Status.WORKING) 1 = some h1 ∧
      State.setToWorking h1 1 = some h2 ∧
      statusOf h2 1 = some Status.WORKING ∧
      statusPreviousOf h2 1 = some Status.ERROR ∧
      statusOf h2 0 = some Status.ERROR ∧
      statusPreviousOf h2 0 = statusPreviousOf h1 0 ∧
      statusPreviousOf h2 0 = some Status.WORKING :=
  ⟨rfl, rfl, parent_not_restored (pairHeap Status.WORKING Status.WORKING) 1 0
    (childState Status.WORKING 0) (rootState Status.WORKING) rfl rfl rfl (by decide)⟩

/-- C11: constructing a State with `State(parent)` for a pointer that designates a live
State `p` returns and is a transition on `p`: whatever record `p` held, afterwards the
status of `p` is INITIALIZE and its status_previous is the status it had before the
construction. -/
theorem constructor_transitions_parent (h : Heap) (raw : State) (p : Addr) (sp : State)
    (hp : h[p]? = some sp) :
    ∃ h' a, State.State_ctor_parent h raw (some p) = some (h', a) ∧
      statusOf h' p = some Status.INITIALIZE ∧
      statusPreviousOf h' p = some sp.status := by
  have hlt := length_pos_of_getElem? h p sp hp
  have hne : p ≠ h.length := Nat.ne_of_lt hlt
  have hnew := getElem?_append_new h ⟨Status.INITIALIZE, raw.status_previous, some p⟩
  have hp1 : (h ++ [⟨Status.INITIALIZE, raw.status_previous, some p⟩])[p]? = some sp := by
    rw [List.getElem?_append_left hlt]
    exact hp
  rw [State_ctor_parent_eq, setToInitialize_of_parent _ _ p _ sp hnew rfl hp1 hne]
  have hlt1 : p < h.length + 1 := Nat.lt_succ_of_lt hlt
  refine ⟨_, _, rfl, ?_, ?_⟩
  · simp [statusOf, hlt1]
  · simp [statusPreviousOf, hlt1]

/-- Witness for C11: a child is constructed with the ERROR State at address 0 as
parent. -/
theorem constructor_transitions_parent_witness :
    (pairHeap Status.ERROR Status.WORKING)[0]? = some (rootState Status.ERROR) ∧
    ∃ h' a, State.State_ctor_parent (pairHeap Status.ERROR Status.WORKING)
        ⟨Status.WORKING, Status.WORKING, some 7⟩ (some 0) = some (h', a) ∧
      statusOf h' 0 = some Status.INITIALIZE ∧
      statusPreviousOf h' 0 = some Status.ERROR :=
  ⟨rfl, constructor_transitions_parent (pairHeap Status.ERROR Status.WORKING)
    ⟨Status.WORKING, Status.WORKING, some 7⟩ 0 (rootState Status.ERROR) rfl⟩

/-- C12: for a live child `c` whose parent pointer designates a live State `p` other
than `c`, where the parent pointer of `p` does not designate `c` (it is NULL or
designates a live State), each of `p.setToInitialize()`, `p.setToWorking()` and
`p.setToError()` returns and leaves the status and the status_previous of `c` as they
were. -/
theorem propagation_never_goes_downward (h : Heap) (c p : Addr) (sc sp : State)
    (_hc : h[c]? = some sc) (_hcpar : sc.parent_state_ptr = some p)
    (hp : h[p]? = some sp) (hpc : p ≠ c)
    (hnotpar : sp.parent_state_ptr ≠ some c)
    (hlive : ∀ q, sp.parent_state_ptr = some q → q < h.length) :
    ∀ f ∈ [State.setToInitialize, State.setToWorking, State.setToError],
      ∃ h', f h p = some h' ∧
        statusOf h' c = statusOf h c ∧
        statusPreviousOf h' c = statusPreviousOf h c := by
  have hrec : ∀ (h' : Heap), h'[c]? = h[c]? →
      statusOf h' c = statusOf h c ∧ statusPreviousOf h' c = statusPreviousOf h c := by
    intro h' e
    simp [statusOf, statusPreviousOf, e]
  have one : ∀ x : State, (h.set p x)[c]? = h[c]? := fun _ => List.getElem?_set_ne hpc
  intro f hf
  simp only [List.mem_cons, List.mem_singleton, List.not_mem_nil, or_false] at hf
  cases hq : sp.parent_state_ptr with
  | none =>
    rcases hf with rfl | rfl | rfl
    · exact ⟨_, setToInitialize_of_no_parent h p sp hp hq, hrec _ (one _)⟩
    · exact ⟨_, setToWorking_of_live h p sp hp, hrec _ (one _)⟩
    · exact ⟨_, setToError_of_no_parent h p sp hp hq, hrec _ (one _)⟩
  | some q =>
    have hqc : q ≠ c := fun e => hnotpar (by rw [hq, e])
    have two : ∀ x y : State, ((h.set p x).set q y)[c]? = h[c]? := by
      intro x y
      rw [List.getElem?_set_ne hqc, List.getElem?_set_ne hpc]
    by_cases hqp : q = p
    · subst hqp
      rcases hf with rfl | rfl | rfl
      · exact ⟨_, setToInitialize_of_self h q sp hp hq, hrec _ (one _)⟩
      · exact ⟨_, setToWorking_of_live h q sp hp, hrec _ (one _)⟩
      · exact ⟨_, setToError_of_self h q sp hp hq, hrec _ (one _)⟩
    · have hlt := hlive q hq
      have hqs : h[q]? = some h[q] := List.getElem?_eq_getElem hlt
      rcases hf with rfl | rfl | rfl
      · exact ⟨_, setToInitialize_of_parent h p q sp h[q] hp hq hqs hqp, hrec _ (two _ _)⟩
      · exact ⟨_, setToWorking_of_live h p sp hp, hrec _ (one _)⟩
      · exact ⟨_, setToError_of_parent h p q sp h[q] hp hq hqs hqp, hrec _ (two _ _)⟩

/-- Witness for C12: in the chain of three WORKING States, the child at address 2 and
its parent at address 1, whose own parent is the State at address 0. -/
theorem propagation_never_goes_downward_witness :
    chainHeap[2]? = some (childState Status.WORKING 1) ∧
    chainHeap[1]? = some (childState Status.WORKING 0) ∧
    (childState Status.WORKING 0).parent_state_ptr ≠ some 2 ∧
    (∀ q, (childState Status.WORKING 0).parent_state_ptr = some q → q < chainHeap.length) ∧
    ∀ f ∈ [State.setToInitialize, State.setToWorking, State.setToError],
      ∃ h', f chainHeap 1 = some h' ∧
        statusOf h' 2 = statusOf chainHeap 2 ∧
        statusPreviousOf h' 2 = statusPreviousOf chainHeap 2 :=
  have hlive : ∀ q, (childState Status.WORKING 0).parent_state_ptr = some q →
      q < chainHeap.length := by
    intro q hq
    have h0 : 0 = q := Option.some.inj hq
    subst h0
    decide
  ⟨rfl, rfl, by decide, hlive,
    propagation_never_goes_downward chainHeap 2 1 (childState Status.WORKING 1)
      (childState Status.WORKING 0) rfl rfl rfl (by decide) (by decide) hlive⟩

/-- C13: for a live State `s` whose parent pointer designates a live State `o`, and a
live State `n`, `s.setParentStatePointer(n)` returns, makes `n` the parent link of `s`,
leaves every object other than `s` with the record it had and leaves the status and the
status_previous of every object (so of `s`, of `o` and of `n`) as they were; this holds
for every pointer argument.  A subsequent `s.setToError()` returns, sets `s` and `n` to
ERROR, records the prior status of `n` when `n` is not `s`, and leaves the record of the
former parent `o` as it was, `o` being neither `s` nor `n`. -/
theorem setParentStatePointer_changes_only_link (h : Heap) (s o n : Addr)
    (st so sn : State)
    (hs : h[s]? = some st) (_hso : st.parent_state_ptr = some o)
    (_ho : h[o]? = some so) (hn : h[n]? = some sn)
    (hos : o ≠ s) (hon : o ≠ n) :
    (∀ pin : Option Addr, ∃ h1, State.setParentStatePointer h s pin = some h1 ∧
      parentOf h1 s = some pin ∧
      (∀ a, a ≠ s → h1[a]? = h[a]?) ∧
      (∀ a, statusOf h1 a = statusOf h a ∧
        statusPreviousOf h1 a = statusPreviousOf h a)) ∧
    (∃ h1 h2, State.setParentStatePointer h s (some n) = some h1 ∧
      State.setToError h1 s = some h2 ∧
      statusOf h2 s = some Status.ERROR ∧
      statusOf h2 n = some Status.ERROR ∧
      (n ≠ s → statusPreviousOf h2 n = some sn.status) ∧
      h2[o]? = h[o]?) := by
  have hls := length_pos_of_getElem? h s st hs
  have hln := length_pos_of_getElem? h n sn hn
  constructor
  · intro pin
    refine ⟨_, setParentStatePointer_of_live h s st pin hs, ?_, ?_, ?_⟩
    · simp [parentOf, hls]
    · intro a ha
      exact List.getElem?_set_ne (fun e => ha e.symm)
    · exact statuses_of_set_same_statuses h s st _ hs rfl rfl
  · have h1s : (h.set s ⟨st.status, st.status_previous, some n⟩)[s]?
        = some ⟨st.status, st.status_previous, some n⟩ := by
      simp [hls]
    by_cases hns : n = s
    · subst hns
      refine ⟨_, _, setParentStatePointer_of_live h n st (some n) hs,
        setToError_of_self _ n _ h1s rfl, ?_, ?_, ?_, ?_⟩
      · simp [statusOf, hls]
      · simp [statusOf, hls]
      · intro hne
        exact absurd rfl hne
      · rw [List.getElem?_set_ne (fun e => hos e.symm),
          List.getElem?_set_ne (fun e => hos e.symm)]
    · have h1n : (h.set s ⟨st.status, st.status_previous, some n⟩)[n]? = some sn := by
        rw [List.getElem?_set_ne (fun e => hns e.symm)]
        exact hn
      refine ⟨_, _, setParentStatePointer_of_live h s st (some n) hs,
        setToError_of_parent _ s n _ sn h1s rfl h1n hns, ?_, ?_, ?_, ?_⟩
      · simp [statusOf, List.getElem?_set_ne hns, hls]
      · simp [statusOf, hln]
      · intro _
        simp [statusPreviousOf, hln]
      · rw [List.getElem?_set_ne (fun e => hon e.symm),
          List.getElem?_set_ne (fun e => hos e.symm),
          List.getElem?_set_ne (fun e => hos e.symm)]

/-- Witness for C13: in the chain of three WORKING States, the State at address 2 is
moved from its parent at address 1 to the State at address 0. -/
theorem setParentStatePointer_changes_only_link_witness :
    chainHeap[2]? = some (childState Status.WORKING 1) ∧
    chainHeap[1]? = some (childState Status.WORKING 0) ∧
    chainHeap[0]? = some (rootState Status.WORKING) ∧
    (∀ pin : Option Addr, ∃ h1, State.setParentStatePointer chainHeap 2 pin = some h1 ∧
      parentOf h1 2 = some pin ∧
      (∀ a, a ≠ 2 → h1[a]? = chainHeap[a]?) ∧
      (∀ a, statusOf h1 a = statusOf chainHeap a ∧
        statusPreviousOf h1 a = statusPreviousOf chainHeap a)) ∧
    (∃ h1 h2, State.setParentStatePointer chainHeap 2 (some 0) = some h1 ∧
      State.setToError h1 2 = some h2 ∧
      statusOf h2 2 = some Status.ERROR ∧
      statusOf h2 0 = some Status.ERROR ∧
      ((0 : Addr) ≠ 2 → statusPreviousOf h2 0 = some Status.WORKING) ∧
      h2[1]? = chainHeap[1]?) :=
  ⟨rfl, rfl, rfl,
    setParentStatePointer_changes_only_link chainHeap 2 1 0 (childState Status.WORKING 1)
      (childState Status.WORKING 0) (rootState Status.WORKING) rfl rfl rfl rfl
      (by decide) (by decide)⟩
